import Mathlib

/-!
Verification of the tubemate.io repository (app.py, a Flask wrapper around
yt-dlp/ffmpeg, and cli.py, an interactive command-line flow) against its
natural-language specification.

The Python source is shallowly embedded: pure data shaping becomes Lean
functions over `ℚ`/`String`/`List`, Python `None` becomes `Option`, external
subprocesses and JSON parsing become oracle parameters, and filesystem state
becomes an explicit `List String` of existing entries.  Python float
arithmetic inside `human_bytes` is idealised as exact rational arithmetic
(the spec itself only demands correctness "within rounding").
-/

namespace Tubemate

/-! ## Python-semantics helpers -/

/-- Characters treated as whitespace by Python `str.strip`/`str.rstrip` and by
the regex class `\s` (ASCII range): space, tab, newline, carriage return,
vertical tab, form feed. -/
def isPySpace (c : Char) : Bool :=
  c = ' ' || c = '\t' || c = '\n' || c = '\r' || c = Char.ofNat 11 || c = Char.ofNat 12

/-- Model of Python `str.strip()` on a character list. -/
def stripL (l : List Char) : List Char :=
  ((l.dropWhile isPySpace).reverse.dropWhile isPySpace).reverse

/-- Model of Python `str.rstrip()` on a character list. -/
def rstripL (l : List Char) : List Char :=
  (l.reverse.dropWhile isPySpace).reverse

/-- Model of Python `str.strip()`. -/
def pyStrip (s : String) : String := String.mk (stripL s.data)

/-- Model of Python `str.rstrip()` as used on each output line. -/
def pyRstrip (s : String) : String := String.mk (rstripL s.data)

/-- Truthiness of an optional string in Python: `None` and `""` are falsy. -/
def pyTruthy : Option String → Bool
  | none => false
  | some s => s ≠ ""

/-- Truthiness of an optional number in Python: `None`, `0` and `0.0` are falsy. -/
def pyTruthyNum : Option ℚ → Bool
  | none => false
  | some x => x ≠ 0

/-- Python `a or b` on optional numbers (used for `filesize or filesize_approx`). -/
def pyOrNum (a b : Option ℚ) : Option ℚ :=
  if pyTruthyNum a then a else b

/-- Python `x or 0` on an optional number, as used in the sort keys. -/
def pyOr0 (x : Option ℚ) : ℚ :=
  if pyTruthyNum x then x.getD 0 else 0

/-- Model of Python `str.lower()` (ASCII case fold, sufficient for the URLs
and flags compared by the code). -/
def pyLower (s : String) : String := String.mk (s.data.map Char.toLower)

/-- Substring containment on character lists, modelling Python's `in` on
strings. -/
def infixOf (needle : List Char) : List Char → Bool
  | [] => needle.isEmpty
  | c :: cs => needle.isPrefixOf (c :: cs) || infixOf needle cs

/-- Model of Python's `needle in hay` for strings. -/
def pyIn (needle hay : String) : Bool := infixOf needle.data hay.data

/-- Model of Python's negative-index-aware list subscript `l[i]`; `none`
models an `IndexError`. -/
def pyIndex (l : List String) (i : ℤ) : Option String :=
  if i < 0 then
    if 0 ≤ i + l.length then l.get? (i + l.length).toNat else none
  else l.get? i.toNat

/-- Model of Python `round(q, 2)` (round half to even, to a multiple of
1/100) on the exact rational value. -/
def pyRound2 (q : ℚ) : ℚ :=
  let m : ℚ := q * 100
  let fl : ℤ := ⌊m⌋
  let fr : ℚ := m - fl
  let r : ℤ :=
    if fr < 1/2 then fl
    else if 1/2 < fr then fl + 1
    else if fl % 2 = 0 then fl else fl + 1
  (r : ℚ) / 100

/-- Decimal rendering of a nonnegative multiple of 1/100, matching how Python
formats the float values produced by `round(_, 2)` in an f-string (at least
one digit after the point, no trailing zero pair). -/
def ratRepr (q : ℚ) : String :=
  let cents : ℕ := (⌊q * 100⌋).toNat
  let whole : ℕ := cents / 100
  let frac : ℕ := cents % 100
  if frac = 0 then toString whole ++ ".0"
  else if frac % 10 = 0 then toString whole ++ "." ++ toString (frac / 10)
  else toString whole ++ "." ++ (if frac < 10 then "0" else "") ++ toString frac

/-! ## app.py: `human_bytes` (lines 27-39)

```python
def human_bytes(n):
    try:
        n = float(n)
    except Exception:
        return None
    if n == 0:
        return "0 B"
    units = ["B", "KB", "MB", "GB", "TB"]
    i = int(math.floor(math.log(n, 1024)))
    p = math.pow(1024, i)
    s = round(n / p, 2)
    return f"{s} {units[i]}"
```

The input is taken as an exact rational (the `float(n)` conversion of the
numeric JSON field always succeeds; byte counts below `2^53` are exactly
representable).  `int(math.floor(math.log(n, 1024)))` is modelled by
`pyFloorLog1024` below, which is the exact floor logarithm everywhere the
program computes it too — except in the measured window just below
`1024^5`, where the IEEE double logarithm rounds up to exactly `5.0`.  A
`none` result models an uncaught exception: `math.log` raises `ValueError`
on negative input, and `units[i]` raises `IndexError` when `i` is outside
`[-5, 4]`. -/

def hbUnits : List String := ["B", "KB", "MB", "GB", "TB"]

/-- The value of `int(math.floor(math.log(n, 1024)))` as the program
computes it in IEEE double arithmetic.  Just below `1024^5 = 2^50` the true
logarithm lies within half an ulp of `5.0`, so the float rounds up to
exactly `5.0`; measured on this host's CPython, `math.floor(math.log(v,
1024))` is `5` for every representable double `v` with
`1024^5 - 3 ≤ v < 1024^5` (so for the integers `1024^5 - 3`, `-2`, `-1`)
and `4` from `1024^5 - 3.125` down.  Every exact power `1024^k`, `k ≤ 5`,
computes to exactly `k.0`, and no other unit boundary diverges for any
integer (the remaining sub-ulp windows below `1024^k`, `k ≤ 4`, contain no
representable byte count and are idealised as the exact floor). -/
def pyFloorLog1024 (n : ℚ) : ℤ :=
  if 1024 ^ (5:ℕ) - 3 ≤ n ∧ n < 1024 ^ (5:ℕ) then 5 else Int.log 1024 n

def human_bytes (n : ℚ) : Option String :=
  if n = 0 then some "0 B"
  else if n < 0 then none
  else
    (pyIndex hbUnits (pyFloorLog1024 n)).map
      (fun u => ratRepr (pyRound2 (n / (1024 : ℚ) ^ pyFloorLog1024 n)) ++ " " ++ u)

/-! ## Format descriptors and the format classifier

A format descriptor as reported by `yt-dlp -J` and read through Python's
`dict.get`: every field access yields `Option` (Lean `none` = Python `None`,
i.e. the key is absent or JSON `null`).  yt-dlp reports the *absence* of a
video/audio track inside a present descriptor with the string value
`"none"`, and the code compares against exactly that marker. -/

structure Fmt where
  format_id : Option String
  height : Option ℚ
  fps : Option ℚ
  ext : Option String
  abr : Option ℚ
  vcodec : Option String
  acodec : Option String
  filesize : Option ℚ
  filesize_approx : Option ℚ
deriving DecidableEq

/-- Projection built by app.py lines 110-119 for each exposed descriptor:

```python
size = f.get("filesize") or f.get("filesize_approx")
it = {"format_id": ..., "height": ..., "fps": ..., "ext": ..., "abr": ...,
      "filesize": size,
      "filesize_hr": human_bytes(size) if size else None}
```
-/
structure Item where
  format_id : Option String
  height : Option ℚ
  fps : Option ℚ
  ext : Option String
  abr : Option ℚ
  filesize : Option ℚ
  filesize_hr : Option String
deriving DecidableEq

def toItem (f : Fmt) : Item :=
  let size := pyOrNum f.filesize f.filesize_approx
  { format_id := f.format_id
    height := f.height
    fps := f.fps
    ext := f.ext
    abr := f.abr
    filesize := size
    filesize_hr := if pyTruthyNum size then human_bytes (size.getD 0) else none }

/-! ## cli.py: `get_formats` classification loop (lines 44-48)

```python
for f in formats:
    if f.get("vcodec") != "none" and f.get("acodec") == "none":
        video_formats.append(f)
    elif f.get("acodec") != "none" and f.get("vcodec") == "none":
        audio_formats.append(f)
```

The head-first recursion reproduces the append loop: each descriptor lands,
in input order, in at most one of the two lists. -/

def get_formats : List Fmt → List Fmt × List Fmt
  | [] => ([], [])
  | f :: rest =>
    let p := get_formats rest
    if f.vcodec ≠ some "none" ∧ f.acodec = some "none" then (f :: p.1, p.2)
    else if f.acodec ≠ some "none" ∧ f.vcodec = some "none" then (p.1, f :: p.2)
    else p

/-! ## app.py: classification loop of `get_formats_api` (lines 106-123) -/

def classify_formats : List Fmt → List Item × List Item
  | [] => ([], [])
  | f :: rest =>
    let p := classify_formats rest
    if f.vcodec ≠ some "none" ∧ f.acodec = some "none" then (toItem f :: p.1, p.2)
    else if f.acodec ≠ some "none" ∧ f.vcodec = some "none" then (p.1, toItem f :: p.2)
    else p

/-! ## app.py: the two sorts of `get_formats_api` (lines 126-127)

```python
video_formats.sort(key=lambda x: (x["height"] or 0, x["fps"] or 0), reverse=True)
audio_formats.sort(key=lambda x: (x["abr"] or 0), reverse=True)
```

Python `list.sort(key, reverse=True)` is the stable descending sort by the
key; `List.insertionSort` with the relation "key of the left argument is at
least the key of the right argument" computes exactly that stable descending
ordering. -/

/-- Sort key of the video list: the Python tuple `(height or 0, fps or 0)`. -/
def videoKey (x : Item) : ℚ × ℚ := (pyOr0 x.height, pyOr0 x.fps)

/-- Sort key of the audio list: `abr or 0`. -/
def audioKey (x : Item) : ℚ := pyOr0 x.abr

/-- Python's lexicographic `≤` on pairs of numbers. -/
def lexLe (p q : ℚ × ℚ) : Prop := p.1 < q.1 ∨ (p.1 = q.1 ∧ p.2 ≤ q.2)

instance : DecidableRel lexLe := fun p q => by unfold lexLe; infer_instance

/-- Descending comparison used for the video list. -/
def videoDesc (x y : Item) : Prop := lexLe (videoKey y) (videoKey x)

/-- Descending comparison used for the audio list. -/
def audioDesc (x y : Item) : Prop := audioKey y ≤ audioKey x

instance : DecidableRel videoDesc := fun x y => by unfold videoDesc; infer_instance

instance : DecidableRel audioDesc := fun x y => by unfold audioDesc; infer_instance

theorem lexLe_total (p q : ℚ × ℚ) : lexLe p q ∨ lexLe q p := by
  rcases lt_trichotomy p.1 q.1 with h | h | h
  · exact Or.inl (Or.inl h)
  · rcases le_total p.2 q.2 with h2 | h2
    · exact Or.inl (Or.inr ⟨h, h2⟩)
    · exact Or.inr (Or.inr ⟨h.symm, h2⟩)
  · exact Or.inr (Or.inl h)

theorem lexLe_trans {p q r : ℚ × ℚ} (h1 : lexLe p q) (h2 : lexLe q r) : lexLe p r := by
  rcases h1 with h1 | ⟨h1e, h1r⟩
  · rcases h2 with h2 | ⟨h2e, _⟩
    · exact Or.inl (h1.trans h2)
    · exact Or.inl (h2e ▸ h1)
  · rcases h2 with h2 | ⟨h2e, h2r⟩
    · exact Or.inl (h1e ▸ h2)
    · exact Or.inr ⟨h1e.trans h2e, h1r.trans h2r⟩

instance : IsTotal Item videoDesc :=
  ⟨fun x y => by unfold videoDesc; exact lexLe_total (videoKey y) (videoKey x)⟩

instance : IsTrans Item videoDesc :=
  ⟨fun _ _ _ h1 h2 => by unfold videoDesc at *; exact lexLe_trans h2 h1⟩

instance : IsTotal Item audioDesc :=
  ⟨fun x y => by unfold audioDesc; exact le_total (audioKey y) (audioKey x)⟩

instance : IsTrans Item audioDesc :=
  ⟨fun _ _ _ h1 h2 => by unfold audioDesc at *; exact le_trans h2 h1⟩

/-- Classification followed by the two sorts: the format-list portion of
`get_formats_api` (app.py lines 104-127). -/
def process_formats (fs : List Fmt) : List Item × List Item :=
  let p := classify_formats fs
  (List.insertionSort videoDesc p.1, List.insertionSort audioDesc p.2)

/-! ## app.py: the progress regex (lines 175-177)

```python
progress_re = re.compile(
    r"^\[download\]\s+(?P<pct>\d{1,3}(?:\.\d+)?)%\s+of\s+(?P<size>\S+)\s+at\s+(?P<speed>\S+)\s+ETA\s+(?P<eta>\S+)"
)
```

The regex is embedded as a deterministic maximal-munch matcher.  Determinism
is faithful: every `\s+`, `\d+` and `\S+` in the pattern is followed either
by a character its class cannot match or by the end of the pattern, so a
backtracking engine accepts exactly when the maximal-munch pass does, with
the same group captures.  For `\d{1,3}` the candidate counts 3, 2, 1 all
fail when the maximal digit run is longer than 3 (the next char after any
shorter cut is a digit, matching neither `.` nor `%`), which the length
guard reproduces. -/

/-- Consume an exact literal prefix. -/
def dropLit : List Char → List Char → Option (List Char)
  | [], cs => some cs
  | _ :: _, [] => none
  | l :: ls, c :: cs => if c = l then dropLit ls cs else none

/-- Consume `\s+`: at least one whitespace character, then all following
whitespace. -/
def dropWs1 : List Char → Option (List Char)
  | [] => none
  | c :: rest => if isPySpace c then some (rest.dropWhile isPySpace) else none

/-- Consume `\S+`: a maximal nonempty run of non-whitespace characters. -/
def tok1 (cs : List Char) : Option (List Char × List Char) :=
  let t := cs.takeWhile (fun c => !isPySpace c)
  if t.isEmpty then none else some (t, cs.dropWhile (fun c => !isPySpace c))

/-- Consume `\d{1,3}(?:\.\d+)?%`, returning the percent group (without the
percent sign). -/
def matchPct (cs : List Char) : Option (List Char × List Char) :=
  if (cs.takeWhile Char.isDigit).length < 1 ∨ 3 < (cs.takeWhile Char.isDigit).length then none
  else
    match cs.dropWhile Char.isDigit with
    | '.' :: rest2 =>
      if (rest2.takeWhile Char.isDigit).length < 1 then none
      else
        match rest2.dropWhile Char.isDigit with
        | '%' :: rest3 =>
          some (cs.takeWhile Char.isDigit ++ '.' :: rest2.takeWhile Char.isDigit, rest3)
        | _ => none
    | '%' :: rest3 => some (cs.takeWhile Char.isDigit, rest3)
    | _ => none

/-- The four named groups captured by `progress_re`. -/
structure ProgressGroups where
  pct : String
  size : String
  speed : String
  eta : String
deriving DecidableEq

/-- Consume a literal followed by `\\s+`. -/
def litWs (lit : List Char) (cs : List Char) : Option (List Char) :=
  (dropLit lit cs).bind dropWs1

/-- Consume `\\S+` followed by `\\s+`, returning the token. -/
def tokWs (cs : List Char) : Option (List Char × List Char) :=
  (tok1 cs).bind fun t => (dropWs1 t.2).map fun r => (t.1, r)

/-- The part of the pattern after `of\\s+`: `(\\S+)\\s+at\\s+(\\S+)\\s+ETA\\s+(\\S+)`,
returning the size, speed and eta groups. -/
def matchTail (cs : List Char) : Option (List Char × List Char × List Char) :=
  (tokWs cs).bind fun sz =>
  (litWs "at".data sz.2).bind fun r10 =>
  (tokWs r10).bind fun sp =>
  (litWs "ETA".data sp.2).bind fun r14 =>
  (tok1 r14).map fun et => (sz.1, sp.1, et.1)

/-- Model of `progress_re.match(line)` (anchored at the start, trailing text
permitted). -/
def matchProgress (cs : List Char) : Option ProgressGroups :=
  (litWs "[download]".data cs).bind fun r2 =>
  (matchPct r2).bind fun pr =>
  (dropWs1 pr.2).bind fun r4 =>
  (litWs "of".data r4).bind fun r6 =>
  (matchTail r6).map fun g =>
  ⟨String.mk pr.1, String.mk g.1, String.mk g.2.1, String.mk g.2.2⟩

/-! ## Model of Python's `float(str)` conversion

Covers the decimal forms `[+-]? (D+ [. D*]? | . D+) ([eE][+-]?D+)?` with
surrounding whitespace stripped, evaluated exactly; other accepted spellings
(`inf`, `nan`, digit-group underscores, hex) are not produced by any caller
in this program and are modelled as failures.  `none` models `ValueError`. -/

def digitsVal (cs : List Char) : ℕ :=
  cs.foldl (fun a c => 10 * a + (c.toNat - 48)) 0

def floatExpPart (base : ℚ) (cs : List Char) : Option ℚ :=
  let p : ℤ × List Char :=
    match cs with
    | '+' :: r => (1, r)
    | '-' :: r => (-1, r)
    | _ => (1, cs)
  let ed := p.2.takeWhile Char.isDigit
  let rest := p.2.dropWhile Char.isDigit
  if ed.isEmpty ∨ ¬ rest.isEmpty then none
  else some (base * (10 : ℚ) ^ (p.1 * (digitsVal ed : ℤ)))

def floatTail (base : ℚ) : List Char → Option ℚ
  | [] => some base
  | 'e' :: r => floatExpPart base r
  | 'E' :: r => floatExpPart base r
  | _ => none

/-- The mantissa `D* [. D*]` (at least one digit overall) followed by the
optional exponent, after the sign: the integer digits are the leading digit
run of `cs1`, a following `.` introduces the fraction digit run. -/
def pyFloatMantissa (sgn : ℚ) (cs1 : List Char) : Option ℚ :=
  if (cs1.dropWhile Char.isDigit).head? = some '.' then
    if (cs1.takeWhile Char.isDigit).isEmpty
        ∧ (((cs1.dropWhile Char.isDigit).drop 1).takeWhile Char.isDigit).isEmpty then none
    else
      floatTail
        (sgn * ((digitsVal (cs1.takeWhile Char.isDigit) : ℚ)
          + (digitsVal (((cs1.dropWhile Char.isDigit).drop 1).takeWhile Char.isDigit) : ℚ)
            / (10 : ℚ) ^ (((cs1.dropWhile Char.isDigit).drop 1).takeWhile Char.isDigit).length))
        (((cs1.dropWhile Char.isDigit).drop 1).dropWhile Char.isDigit)
  else if (cs1.takeWhile Char.isDigit).isEmpty then none
  else floatTail (sgn * (digitsVal (cs1.takeWhile Char.isDigit) : ℚ)) (cs1.dropWhile Char.isDigit)

def pyFloatCore (cs : List Char) : Option ℚ :=
  if cs.head? = some '+' then pyFloatMantissa 1 (cs.drop 1)
  else if cs.head? = some '-' then pyFloatMantissa (-1) (cs.drop 1)
  else pyFloatMantissa 1 cs

def pyFloat (s : String) : Option ℚ := pyFloatCore (stripL s.data)

/-! ## app.py: the SSE stream (lines 179-231)

Each JSON message written to the stream is modelled as a typed event.  The
two `status: "error"` emissions that occur *outside* the line loop (the
post-`wait` non-zero exit code, and the two `except` arms) are distinct
constructors from the in-stream `ERROR:`-line event, mirroring their
distinct emission sites in the code. -/

inductive Event
  | starting
  | downloading (percent : Option ℚ) (size speed eta : String)
  | destination (message : String)
  | already (message : String)
  | merging (message : String)
  | postprocess (message : String)
  | info (message : String)
  | error (message : String)
  | finished
  | exitError (code : ℤ)
  | launchError (message : String)
  | streamError (message : String)
deriving DecidableEq

/-- Terminal events: the single post-loop emission (`finished` on exit code
0, the exit-code error otherwise) and the emissions of the two `except`
arms.  In-loop events — including the `ERROR:`-line event — are content
events. -/
def Event.isTerminal : Event → Bool
  | .finished => true
  | .exitError _ => true
  | .launchError _ => true
  | .streamError _ => true
  | _ => false

def startsWithL (pre s : String) : Bool := pre.data.isPrefixOf s.data

/-- Suffix after the first occurrence of `pat`, if any. -/
def afterFirst (pat : List Char) : List Char → Option (List Char)
  | [] => none
  | c :: cs =>
    if pat.isPrefixOf (c :: cs) then some ((c :: cs).drop pat.length)
    else afterFirst pat cs

/-- Model of `line.split(pat, 1)[-1]`: the text after the first occurrence of
`pat`, or the whole string when `pat` does not occur. -/
def splitLast (pat : String) (s : String) : String :=
  match afterFirst pat.data s.data with
  | some r => String.mk r
  | none => s

/-- The per-line dispatch of the stream loop (app.py lines 193-221): the
line is `rstrip`-ped, tried against the progress regex, then against the
prefix/containment patterns in order; unmatched lines produce no event. -/
def lineEventCore (line : String) : Option Event :=
  match matchProgress line.data with
  | some m => some (.downloading (pyFloat m.pct) m.size m.speed m.eta)
  | none =>
    if startsWithL "[download] Destination:" line then
      some (.destination (pyStrip (splitLast "Destination:" line)))
    else if pyIn "has already been downloaded" line then
      some (.already (pyStrip line))
    else if startsWithL "[Merger]" line then
      some (.merging (pyStrip line))
    else if startsWithL "[ExtractAudio]" line then
      some (.postprocess (pyStrip line))
    else if startsWithL "[youtube]" line || startsWithL "[info]" line then
      some (.info (pyStrip line))
    else if startsWithL "ERROR:" line then
      some (.error (pyStrip line))
    else none

/-- The per-line dispatch applied to the `rstrip`-ped raw line. -/
def lineEvent (raw : String) : Option Event := lineEventCore (pyRstrip raw)

/-- How one run of the spawned process can go: normal completion with the
produced output lines and the exit code; a `FileNotFoundError` from `Popen`
(nothing was read); or some other exception raised after part of the output
was consumed (the generic `except Exception` arm). -/
inductive RunResult
  | completed (lines : List String) (exitCode : ℤ)
  | launchFailure (message : String)
  | abortedAfter (lines : List String) (message : String)

/-- The full event sequence produced by `sse_stream` for one run: the
`starting` event, the per-line content events, and the single emission that
follows (`finished`/exit-code error after `proc.wait()`, or the `except`
arm's error). -/
def sse_stream : RunResult → List Event
  | .completed lines code =>
    .starting :: (lines.filterMap lineEvent ++
      [if code = 0 then .finished else .exitError code])
  | .launchFailure msg => [.starting, .launchError msg]
  | .abortedAfter lines msg =>
    .starting :: (lines.filterMap lineEvent ++ [.streamError msg])

/-! ## app.py: playlist detection and defaults (lines 49-55) -/

def default_playlist_format : String := "bv*[height<=720]+ba/b[height<=720]"

/-- app.py lines 53-55: the URL is lower-cased and scanned for either
playlist marker. -/
def is_probably_playlist (url : String) : Bool :=
  let u := pyLower url
  pyIn "list=" u || pyIn "/playlist" u

/-! ## app.py: `/get_formats` (lines 58-134)

The two external effects are oracle parameters: `runJ` is the
`run_cmd_once` subprocess result `(stdout, stderr, returncode)` for a given
argument list, and `parseJ` is `json.loads` (`Except.error` = a
`JSONDecodeError` and its message).  A parsed JSON document is abstracted to
the fields the endpoint reads: its own truthiness, `title`, `formats` and
the truthiness of `entries`. -/

structure YtData where
  truthy : Bool
  title : Option String
  formats : List Fmt
  entriesTruthy : Bool

/-- An HTTP request to `/get_formats`: the `url` query parameter, whether the
body is JSON, and the `url` member of that JSON body. -/
structure FormatsRequest where
  query_url : Option String
  is_json : Bool
  json_url : Option String

inductive ApiResp
  | badRequest (error : String)
  | notFound (error : String)
  | payload (title : String) (is_playlist : Bool) (video audio : List Item)
deriving DecidableEq

/-- Python truthiness of the `data` variable (`None` and an empty dict are
falsy). -/
def dataTruthy : Option YtData → Bool
  | none => false
  | some d => d.truthy

/-- The value `data.get("formats")`/`data.get("formats", [])` reads, with a
missing key as the empty list. -/
def dataFormats : Option YtData → List Fmt
  | none => []
  | some d => d.formats

def dataEntriesTruthy : Option YtData → Bool
  | none => false
  | some d => d.entriesTruthy

def dataTitle : Option YtData → Option String
  | none => none
  | some d => d.title

/-- app.py lines 77-85 (`fetch_formats_for`). -/
def fetch_formats_for (runJ : List String → String × String × ℤ)
    (parseJ : String → Except String YtData) (ytdlp given_url : String)
    (extra : List String) : Option YtData × Option String :=
  let out := runJ ([ytdlp, "-J"] ++ extra ++ [given_url])
  let raw := if pyStrip out.1 ≠ "" then pyStrip out.1 else pyStrip out.2.1
  if raw = "" then (none, some ("No output from yt-dlp (exit " ++ toString out.2.2 ++ ")"))
  else
    match parseJ raw with
    | .ok d => (some d, none)
    | .error e => (none, some ("Invalid JSON from yt-dlp: " ++ e))

/-- app.py lines 59-134 (`get_formats_api`): url extraction from query or
JSON body, the 400 guard, the playlist short-circuit, the single-video
fetch with its no-flag fallback, the 404 guard, and the classified/sorted
payload. -/
def get_formats_api (runJ : List String → String × String × ℤ)
    (parseJ : String → Except String YtData) (ytdlp : String)
    (r : FormatsRequest) : ApiResp :=
  let url : Option String := if !pyTruthy r.query_url && r.is_json then r.json_url else r.query_url
  if !pyTruthy url then .badRequest "Missing url"
  else
    let u := url.getD ""
    if is_probably_playlist u then .payload "Playlist" true [] []
    else
      let d1 := fetch_formats_for runJ parseJ ytdlp u ["--no-playlist"]
      let refetch := !dataTruthy d1.1 || (dataFormats d1.1).isEmpty
      let d2 := if refetch then fetch_formats_for runJ parseJ ytdlp u [] else d1
      if refetch && (dataTruthy d2.1 && dataEntriesTruthy d2.1 && (dataFormats d2.1).isEmpty) then
        .payload (if pyTruthy (dataTitle d2.1) then (dataTitle d2.1).getD "" else "Playlist")
          true [] []
      else if !dataTruthy d2.1 || (dataFormats d2.1).isEmpty then
        .notFound (if pyTruthy d2.2 then d2.2.getD "" else "No formats found")
      else
        let p := process_formats (dataFormats d2.1)
        .payload ((dataTitle d2.1).getD "video") false p.1 p.2

/-! ## app.py: `/progress` command construction (lines 137-172)

`url` and `quality` below are the request parameters (the route reads them
with default `""` and strips them); `download_path` is the directory already
resolved by `safe_path` (modelled separately); `is_playlistP` is the raw
`is_playlist` parameter with its default `"false"`. -/

/-- The membership test `... .lower() in ("1", "true", "yes")` of line 143. -/
def truthyFlag (s : String) : Bool :=
  pyLower s = "1" || pyLower s = "true" || pyLower s = "yes"

/-- POSIX `os.path.join` for the two-argument uses in the route. -/
def pyJoin (a b : String) : String :=
  if startsWithL "/" b then b
  else if a = "" || a.data.getLast? = some '/' then a ++ b
  else a ++ "/" ++ b

/-- The yt-dlp invocation built by the `/progress` route, or the 400 error
it returns instead (`Except.error` = the JSON error body of a 400
response). -/
def progress_cmd (ytdlp ffmpeg : String) (urlP qualityP : String)
    (download_path : String) (is_playlistP : String) : Except String (List String) :=
  let url := pyStrip urlP
  let quality := pyStrip qualityP
  let force_playlist := truthyFlag is_playlistP
  let playlist_mode := force_playlist || is_probably_playlist url
  if url = "" then .error "Missing url"
  else if playlist_mode then
    .ok ([ytdlp, "--newline", "-f", default_playlist_format, "--yes-playlist"]
      ++ (if ffmpeg ≠ "" then ["--ffmpeg-location", ffmpeg] else [])
      ++ ["-o", pyJoin (pyJoin download_path "%(playlist_title,channel)s") "%(title)s.%(ext)s",
          url])
  else if quality = "" then .error "Missing quality (vfmt or vfmt+afmt) for single video"
  else
    let q := if pyIn "+" quality then quality else quality ++ "+ba"
    .ok ([ytdlp, "--newline", "-f", q, "--no-playlist"]
      ++ (if ffmpeg ≠ "" then ["--ffmpeg-location", ffmpeg] else [])
      ++ ["-o", pyJoin download_path "%(title)s.%(ext)s", url])

/-! ## app.py: `safe_path` (lines 41-47) and the `/progress` path handling
(line 142)

The filesystem is a list of existing directory paths; `expanduser` and
`resolve` are abstract host-dependent path functions (`Path.resolve` always
yields an absolute path, which theorems take as a hypothesis on the
context). -/

structure PathCtx where
  cwd : String
  expanduser : String → String
  resolve : String → String

/-- A path is absolute when it starts with the separator (POSIX). -/
def isAbs (s : String) : Bool := s.data.head? = some '/'

/-- Proper prefixes of `t` that end just before a separator: the ancestor
directories `mkdir(parents=True)` creates alongside `t`. -/
def pathParents (t : String) : List String :=
  (List.range t.data.length).filterMap fun i =>
    if t.data.get? i = some '/' then some (String.mk (t.data.take i)) else none

/-- Effect of `target.mkdir(parents=True, exist_ok=True)` on the set of
existing directories. -/
def mkdirParents (t : String) (dirs : List String) : List String :=
  pathParents t ++ t :: dirs

/-- app.py lines 41-47: empty input resolves to the current working
directory; otherwise expand, resolve, create, and return the target. -/
def safe_path (ctx : PathCtx) (dirs : List String) (p : String) : String × List String :=
  if p = "" then (ctx.cwd, dirs)
  else
    let t := ctx.resolve (ctx.expanduser p)
    (t, mkdirParents t dirs)

/-- One hex digit of a percent escape. -/
def hexVal (c : Char) : Option ℕ :=
  if '0' ≤ c ∧ c ≤ '9' then some (c.toNat - 48)
  else if 'a' ≤ c ∧ c ≤ 'f' then some (c.toNat - 87)
  else if 'A' ≤ c ∧ c ≤ 'F' then some (c.toNat - 55)
  else none

/-- Percent-decoding scan of `urllib.parse.unquote` (fuel = input length;
multi-byte UTF-8 escapes are decoded bytewise, which no claim depends
on). -/
def unquoteAux : ℕ → List Char → List Char
  | 0, l => l
  | _ + 1, [] => []
  | fuel + 1, '%' :: a :: b :: rest =>
    match hexVal a, hexVal b with
    | some x, some y => Char.ofNat (16 * x + y) :: unquoteAux fuel rest
    | _, _ => '%' :: unquoteAux fuel (a :: b :: rest)
  | fuel + 1, c :: rest => c :: unquoteAux fuel rest

def pyUnquote (s : String) : String := String.mk (unquoteAux s.data.length s.data)

/-- app.py line 142: `safe_path(unquote(request.args.get("download_path", "").strip()))`
with `param = none` when the query parameter is absent. -/
def progress_download_path (ctx : PathCtx) (dirs : List String)
    (param : Option String) : String × List String :=
  safe_path ctx dirs (pyUnquote (pyStrip (param.getD "")))

/-! ## cli.py: `download_and_merge` (lines 72-97)

Each of the three `run_cmd` steps is an oracle taking the filesystem to a
new filesystem plus how the call went: `ok` (some stdout), `failed`
(`None`, non-zero exit), or `raised` (an exception propagating out of the
step — in particular the `sys.exit(1)` `SystemExit` of a missing
executable).  The `finally` block runs on every one of these paths. -/

inductive RunOutcome
  | ok
  | failed
  | raised

inductive DamResult
  | success
  | failure
  | raised
deriving DecidableEq

/-- Model of `if os.path.exists(f): os.remove(f)`. -/
def pyRemoveIfExists (name : String) (fs : List String) : List String :=
  if name ∈ fs then fs.filter (fun x => x ≠ name) else fs

/-- The `finally` block, cli.py lines 93-97: remove `video_temp.mp4`, then
`audio_temp.m4a`. -/
def dam_cleanup (fs : List String) : List String :=
  pyRemoveIfExists "audio_temp.m4a" (pyRemoveIfExists "video_temp.mp4" fs)

def download_and_merge (s1 s2 s3 : List String → List String × RunOutcome)
    (fs0 : List String) : DamResult × List String :=
  let r1 := s1 fs0
  let body : DamResult × List String :=
    match r1.2 with
    | .raised => (.raised, r1.1)
    | .failed => (.failure, r1.1)
    | .ok =>
      let r2 := s2 r1.1
      match r2.2 with
      | .raised => (.raised, r2.1)
      | .failed => (.failure, r2.1)
      | .ok =>
        let r3 := s3 r2.1
        match r3.2 with
        | .raised => (.raised, r3.1)
        | .failed => (.failure, r3.1)
        | .ok => (.success, r3.1)
  (body.1, dam_cleanup body.2)

/-! ## Supporting lemmas -/

theorem mem_get_formats_fst (fs : List Fmt) (f : Fmt) :
    f ∈ (get_formats fs).1 ↔
      f ∈ fs ∧ f.vcodec ≠ some "none" ∧ f.acodec = some "none" := by
  induction fs with
  | nil => simp [get_formats]
  | cons g rest ih =>
    by_cases h1 : g.vcodec ≠ some "none" ∧ g.acodec = some "none"
    · simp only [get_formats, if_pos h1, List.mem_cons]
      constructor
      · rintro (rfl | hf)
        · exact ⟨Or.inl rfl, h1⟩
        · exact ⟨Or.inr (ih.mp hf).1, (ih.mp hf).2⟩
      · rintro ⟨rfl | hf, hc⟩
        · exact Or.inl rfl
        · exact Or.inr (ih.mpr ⟨hf, hc⟩)
    · by_cases h2 : g.acodec ≠ some "none" ∧ g.vcodec = some "none"
      · simp only [get_formats, if_neg h1, if_pos h2]
        constructor
        · intro hf
          exact ⟨List.mem_cons_of_mem _ (ih.mp hf).1, (ih.mp hf).2⟩
        · rintro ⟨hf, hc⟩
          rcases List.mem_cons.mp hf with rfl | hf
          · exact absurd hc h1
          · exact ih.mpr ⟨hf, hc⟩
      · simp only [get_formats, if_neg h1, if_neg h2]
        constructor
        · intro hf
          exact ⟨List.mem_cons_of_mem _ (ih.mp hf).1, (ih.mp hf).2⟩
        · rintro ⟨hf, hc⟩
          rcases List.mem_cons.mp hf with rfl | hf
          · exact absurd hc h1
          · exact ih.mpr ⟨hf, hc⟩

theorem mem_get_formats_snd (fs : List Fmt) (f : Fmt) :
    f ∈ (get_formats fs).2 ↔
      f ∈ fs ∧ f.acodec ≠ some "none" ∧ f.vcodec = some "none" := by
  induction fs with
  | nil => simp [get_formats]
  | cons g rest ih =>
    by_cases h1 : g.vcodec ≠ some "none" ∧ g.acodec = some "none"
    · simp only [get_formats, if_pos h1]
      constructor
      · intro hf
        exact ⟨List.mem_cons_of_mem _ (ih.mp hf).1, (ih.mp hf).2⟩
      · rintro ⟨hf, hc⟩
        rcases List.mem_cons.mp hf with rfl | hf
        · exact absurd h1.2 hc.1
        · exact ih.mpr ⟨hf, hc⟩
    · by_cases h2 : g.acodec ≠ some "none" ∧ g.vcodec = some "none"
      · simp only [get_formats, if_neg h1, if_pos h2, List.mem_cons]
        constructor
        · rintro (rfl | hf)
          · exact ⟨Or.inl rfl, h2⟩
          · exact ⟨Or.inr (ih.mp hf).1, (ih.mp hf).2⟩
        · rintro ⟨rfl | hf, hc⟩
          · exact Or.inl rfl
          · exact Or.inr (ih.mpr ⟨hf, hc⟩)
      · simp only [get_formats, if_neg h1, if_neg h2]
        constructor
        · intro hf
          exact ⟨List.mem_cons_of_mem _ (ih.mp hf).1, (ih.mp hf).2⟩
        · rintro ⟨hf, hc⟩
          rcases List.mem_cons.mp hf with rfl | hf
          · exact absurd hc h2
          · exact ih.mpr ⟨hf, hc⟩

theorem mem_classify_fst (fs : List Fmt) (it : Item) :
    it ∈ (classify_formats fs).1 ↔
      ∃ g, g ∈ fs ∧ (g.vcodec ≠ some "none" ∧ g.acodec = some "none") ∧ toItem g = it := by
  induction fs with
  | nil => simp [classify_formats]
  | cons g rest ih =>
    by_cases h1 : g.vcodec ≠ some "none" ∧ g.acodec = some "none"
    · simp only [classify_formats, if_pos h1, List.mem_cons]
      constructor
      · rintro (rfl | hf)
        · exact ⟨g, Or.inl rfl, h1, rfl⟩
        · obtain ⟨w, hw, hc, he⟩ := ih.mp hf
          exact ⟨w, Or.inr hw, hc, he⟩
      · rintro ⟨w, rfl | hw, hc, he⟩
        · exact Or.inl he.symm
        · exact Or.inr (ih.mpr ⟨w, hw, hc, he⟩)
    · by_cases h2 : g.acodec ≠ some "none" ∧ g.vcodec = some "none"
      · simp only [classify_formats, if_neg h1, if_pos h2]
        constructor
        · intro hf
          obtain ⟨w, hw, hc, he⟩ := ih.mp hf
          exact ⟨w, List.mem_cons_of_mem _ hw, hc, he⟩
        · rintro ⟨w, hw, hc, he⟩
          rcases List.mem_cons.mp hw with rfl | hw
          · exact absurd hc h1
          · exact ih.mpr ⟨w, hw, hc, he⟩
      · simp only [classify_formats, if_neg h1, if_neg h2]
        constructor
        · intro hf
          obtain ⟨w, hw, hc, he⟩ := ih.mp hf
          exact ⟨w, List.mem_cons_of_mem _ hw, hc, he⟩
        · rintro ⟨w, hw, hc, he⟩
          rcases List.mem_cons.mp hw with rfl | hw
          · exact absurd hc h1
          · exact ih.mpr ⟨w, hw, hc, he⟩

theorem mem_classify_snd (fs : List Fmt) (it : Item) :
    it ∈ (classify_formats fs).2 ↔
      ∃ g, g ∈ fs ∧ (g.acodec ≠ some "none" ∧ g.vcodec = some "none") ∧ toItem g = it := by
  induction fs with
  | nil => simp [classify_formats]
  | cons g rest ih =>
    by_cases h1 : g.vcodec ≠ some "none" ∧ g.acodec = some "none"
    · simp only [classify_formats, if_pos h1]
      constructor
      · intro hf
        obtain ⟨w, hw, hc, he⟩ := ih.mp hf
        exact ⟨w, List.mem_cons_of_mem _ hw, hc, he⟩
      · rintro ⟨w, hw, hc, he⟩
        rcases List.mem_cons.mp hw with rfl | hw
        · exact absurd h1.2 hc.1
        · exact ih.mpr ⟨w, hw, hc, he⟩
    · by_cases h2 : g.acodec ≠ some "none" ∧ g.vcodec = some "none"
      · simp only [classify_formats, if_neg h1, if_pos h2, List.mem_cons]
        constructor
        · rintro (rfl | hf)
          · exact ⟨g, Or.inl rfl, h2, rfl⟩
          · obtain ⟨w, hw, hc, he⟩ := ih.mp hf
            exact ⟨w, Or.inr hw, hc, he⟩
        · rintro ⟨w, rfl | hw, hc, he⟩
          · exact Or.inl he.symm
          · exact Or.inr (ih.mpr ⟨w, hw, hc, he⟩)
      · simp only [classify_formats, if_neg h1, if_neg h2]
        constructor
        · intro hf
          obtain ⟨w, hw, hc, he⟩ := ih.mp hf
          exact ⟨w, List.mem_cons_of_mem _ hw, hc, he⟩
        · rintro ⟨w, hw, hc, he⟩
          rcases List.mem_cons.mp hw with rfl | hw
          · exact absurd hc h2
          · exact ih.mpr ⟨w, hw, hc, he⟩

theorem mem_process_formats_fst (fs : List Fmt) (it : Item) :
    it ∈ (process_formats fs).1 ↔ it ∈ (classify_formats fs).1 :=
  (List.perm_insertionSort videoDesc (classify_formats fs).1).mem_iff

theorem mem_process_formats_snd (fs : List Fmt) (it : Item) :
    it ∈ (process_formats fs).2 ↔ it ∈ (classify_formats fs).2 :=
  (List.perm_insertionSort audioDesc (classify_formats fs).2).mem_iff

/-! ## Claim theorems -/

/-- C1: for every format descriptor in the tool-reported list, both
classifiers (cli.py `get_formats`, app.py `get_formats_api`) place it in the
video-only list iff its reported video codec is not the tool's null marker
`"none"` while its audio codec is that marker, in the audio-only list iff
the reverse holds, and — since each membership is an iff — in neither list
for muxed or codec-less descriptors.  For the web API the lists hold the
projected items, hence the existential phrasing. -/
theorem classifier_places_video_and_audio (fs : List Fmt) (f : Fmt) (it : Item) :
    (f ∈ (get_formats fs).1 ↔
      f ∈ fs ∧ f.vcodec ≠ some "none" ∧ f.acodec = some "none") ∧
    (f ∈ (get_formats fs).2 ↔
      f ∈ fs ∧ f.acodec ≠ some "none" ∧ f.vcodec = some "none") ∧
    (it ∈ (process_formats fs).1 ↔
      ∃ g, g ∈ fs ∧ (g.vcodec ≠ some "none" ∧ g.acodec = some "none") ∧ toItem g = it) ∧
    (it ∈ (process_formats fs).2 ↔
      ∃ g, g ∈ fs ∧ (g.acodec ≠ some "none" ∧ g.vcodec = some "none") ∧ toItem g = it) :=
  ⟨mem_get_formats_fst fs f, mem_get_formats_snd fs f,
    (mem_process_formats_fst fs it).trans (mem_classify_fst fs it),
    (mem_process_formats_snd fs it).trans (mem_classify_snd fs it)⟩

/-- Sort order demanded by the spec for raw descriptors, for stating
sortedness of the CLI's lists: non-increasing by the pair
`(height or 0, fps or 0)`. -/
def specVideoDescF (x y : Fmt) : Prop :=
  lexLe (pyOr0 y.height, pyOr0 y.fps) (pyOr0 x.height, pyOr0 x.fps)

instance : DecidableRel specVideoDescF := fun x y => by unfold specVideoDescF; infer_instance

/-- A 360p video-only descriptor, listed by the tool before the 720p one, as
yt-dlp reports ascending quality. -/
def fmt360 : Fmt :=
  { format_id := some "134", height := some 360, fps := some 30, ext := some "mp4",
    abr := none, vcodec := some "avc1", acodec := some "none",
    filesize := none, filesize_approx := none }

/-- A 720p video-only descriptor. -/
def fmt720 : Fmt :=
  { format_id := some "136", height := some 720, fps := some 30, ext := some "mp4",
    abr := none, vcodec := some "avc1", acodec := some "none",
    filesize := none, filesize_approx := none }

/-- C4 counterexample: the CLI's `get_formats` (cli.py lines 27-50) performs
no sort, so on a tool list reporting 360p before 720p its video list is in
increasing height order, violating the claimed non-increasing order. -/
theorem cli_video_list_not_sorted :
    (get_formats [fmt360, fmt720]).1 = [fmt360, fmt720] ∧
      ¬ List.Sorted specVideoDescF (get_formats [fmt360, fmt720]).1 := by
  constructor
  · decide
  · intro h
    have h2 : specVideoDescF fmt360 fmt720 := by
      have := (by decide : (get_formats [fmt360, fmt720]).1 = [fmt360, fmt720]) ▸ h
      exact (List.sorted_cons.mp this).1 fmt720 (by decide)
    exact absurd h2 (by decide)

/-- C4 (amended to the HTTP endpoint): every format-list payload the
`/get_formats` endpoint returns — whatever the tool produced — has its video
list sorted non-increasing by the key `(height or 0, fps or 0)` and its
audio list sorted non-increasing by `abr or 0`. -/
theorem api_format_lists_sorted (runJ : List String → String × String × ℤ)
    (parseJ : String → Except String YtData) (ytdlp : String) (r : FormatsRequest)
    (t : String) (pl : Bool) (v a : List Item)
    (h : get_formats_api runJ parseJ ytdlp r = .payload t pl v a) :
    List.Sorted videoDesc v ∧ List.Sorted audioDesc a := by
  simp only [get_formats_api] at h
  repeat' split at h
  all_goals
    first
      | (cases h; exact ⟨List.sorted_nil, List.sorted_nil⟩)
      | (cases h;
          exact ⟨List.sorted_insertionSort videoDesc _, List.sorted_insertionSort audioDesc _⟩)
      | simp at h

/-- C4 witness: the sortedness theorem applied to a concrete request (a
playlist URL, so the payload is independent of the oracles). -/
theorem api_format_lists_sorted_witness :
    List.Sorted videoDesc ([] : List Item) ∧ List.Sorted audioDesc ([] : List Item) :=
  api_format_lists_sorted (fun _ => ("", "", 0)) (fun _ => .error "") "yt-dlp"
    ⟨some "https://y/playlist?list=PL1", false, none⟩ "Playlist" true [] [] (by decide)

/-! ## Lemmas for `human_bytes` -/

theorem pyRound2_intCast (k : ℤ) : pyRound2 (k : ℚ) = k := by
  simp only [pyRound2]
  rw [show ((k:ℚ) * 100) = ((100 * k : ℤ) : ℚ) by push_cast; ring, Int.floor_intCast]
  norm_num

theorem pyRound2_one : pyRound2 (1 : ℚ) = 1 := by
  simpa using pyRound2_intCast 1

theorem pyRound2_512 : pyRound2 (512 : ℚ) = 512 := by
  simpa using pyRound2_intCast 512

theorem ratRepr_one : ratRepr 1 = "1.0" := by
  have h : ⌊(1:ℚ) * 100⌋ = 100 := by norm_num
  simp only [ratRepr, h]
  decide

theorem ratRepr_512 : ratRepr 512 = "512.0" := by
  have h : ⌊(512:ℚ) * 100⌋ = 51200 := by norm_num
  simp only [ratRepr, h]
  decide

theorem log1024_1024 : Int.log 1024 (1024 : ℚ) = 1 := by
  have h : ((1024:ℕ):ℚ) = (1024:ℚ) := by norm_num
  rw [← h, Int.log_natCast]
  simpa using Nat.log_pow (b := 1024) (by norm_num) 1

theorem log1024_half : Int.log 1024 ((1:ℚ)/2) = -1 := by
  have hb : 1 < 1024 := by norm_num
  have hr : (0:ℚ) < 1/2 := by norm_num
  have h1 : (-1:ℤ) ≤ Int.log 1024 ((1:ℚ)/2) := by
    rw [← Int.zpow_le_iff_le_log hb hr]
    norm_num
  have h2 : Int.log 1024 ((1:ℚ)/2) < 0 := by
    rw [← Int.lt_zpow_iff_log_lt hb hr]
    norm_num
  omega

theorem pyFloorLog1024_1024 : pyFloorLog1024 (1024:ℚ) = 1 := by
  unfold pyFloorLog1024
  rw [if_neg (by intro hcon; norm_num at hcon), log1024_1024]

theorem pyFloorLog1024_half : pyFloorLog1024 ((1:ℚ)/2) = -1 := by
  unfold pyFloorLog1024
  rw [if_neg (by intro hcon; norm_num at hcon), log1024_half]

theorem human_bytes_1024 : human_bytes 1024 = some "1.0 KB" := by
  unfold human_bytes
  rw [if_neg (by norm_num), if_neg (by norm_num), pyFloorLog1024_1024]
  have hdiv : (1024:ℚ) / (1024:ℚ) ^ (1:ℤ) = 1 := by norm_num
  rw [hdiv, pyRound2_one, ratRepr_one]
  decide

/-- At the last three integers below `1024^5` the program's float logarithm
is exactly `5.0`, so `units[5]` raises `IndexError`: no value is
produced. -/
theorem human_bytes_top_boundary : human_bytes ((1024:ℚ) ^ (5:ℕ) - 1) = none := by
  unfold human_bytes
  rw [if_neg (by norm_num), if_neg (by norm_num)]
  rw [show pyFloorLog1024 ((1024:ℚ) ^ (5:ℕ) - 1) = 5 from
    if_pos (by constructor <;> norm_num)]
  rfl

/-- C3 counterexample: on the positive input 1/2 the code indexes the unit
list with -1 (Python wraps negative indices), so the value is reported in
terabytes although the terabyte unit — indeed even the smallest unit, one
byte — exceeds 1/2; no unit of the list that does not exceed the input
exists, so the output cannot be expressed in such a unit.  (Verified
against CPython: `human_bytes(0.5) == "512.0 TB"`.) -/
theorem human_bytes_half_wrong_unit :
    human_bytes ((1:ℚ)/2) = some "512.0 TB" ∧
      ¬ ((1024:ℚ) ^ (4:ℕ) ≤ (1:ℚ)/2) ∧ ¬ ((1:ℚ) ≤ (1:ℚ)/2) := by
  refine ⟨?_, by norm_num, by norm_num⟩
  unfold human_bytes
  rw [if_neg (by norm_num), if_neg (by norm_num), pyFloorLog1024_half]
  have hdiv : ((1:ℚ)/2) / (1024:ℚ) ^ (-1:ℤ) = 512 := by
    rw [zpow_neg, zpow_one]
    norm_num
  rw [hdiv, pyRound2_512, ratRepr_512]
  decide

/-- C3 (amended): `human_bytes` maps 0 to `"0 B"` and 1024 to `"1.0 KB"`,
and for every integral byte count `n` with `1 ≤ n ≤ 1024^5 - 4` its output
is expressed in the largest unit of `[B, KB, MB, GB, TB]` not exceeding
`n`.  The original claim's "every positive numeric input" fails below 1 B
(negative list indexing picks TB, see the counterexample) and from
`1024^5 - 3` on: the float logarithm already rounds up to `5.0` at the
last three integers below `1024^5` — exhibited by the `none` (IndexError)
conjunct at `1024^5 - 1` — and `units[i]` is equally out of range for
every larger input. -/
theorem human_bytes_unit_selection (n : ℕ) (h1 : 1 ≤ n) (h5 : n ≤ 1024 ^ (5:ℕ) - 4) :
    human_bytes 0 = some "0 B" ∧
    human_bytes 1024 = some "1.0 KB" ∧
    human_bytes ((1024:ℚ) ^ (5:ℕ) - 1) = none ∧
    ∃ (i : ℕ) (u : String), hbUnits.get? i = some u ∧
      (1024:ℚ) ^ i ≤ (n:ℚ) ∧ (∀ j : ℕ, (1024:ℚ) ^ j ≤ (n:ℚ) → j ≤ i) ∧
      ∃ s : ℚ, human_bytes (n:ℚ) = some (ratRepr s ++ " " ++ u) := by
  refine ⟨by simp [human_bytes], human_bytes_1024, human_bytes_top_boundary, ?_⟩
  have hb : 1 < 1024 := by norm_num
  have hq1 : (1:ℚ) ≤ (n:ℚ) := by exact_mod_cast h1
  have hq4 : (n:ℚ) ≤ 1024 ^ (5:ℕ) - 4 := by
    have h5q : (n:ℚ) ≤ ((1024 ^ (5:ℕ) - 4 : ℕ) : ℚ) := by exact_mod_cast h5
    calc (n:ℚ) ≤ ((1024 ^ (5:ℕ) - 4 : ℕ) : ℚ) := h5q
      _ = 1024 ^ (5:ℕ) - 4 := by
        rw [Nat.cast_sub (by norm_num)]
        push_cast
        ring
  have hq5 : (n:ℚ) < 1024 ^ (5:ℕ) := by linarith
  have hr : (0:ℚ) < (n:ℚ) := lt_of_lt_of_le one_pos hq1
  have hwin : ¬ (1024 ^ (5:ℕ) - 3 ≤ (n:ℚ) ∧ (n:ℚ) < 1024 ^ (5:ℕ)) := by
    rintro ⟨hw, -⟩
    linarith
  have hlogeq : pyFloorLog1024 (n:ℚ) = Int.log 1024 (n:ℚ) := if_neg hwin
  have hcast : ((1024:ℕ):ℚ) = (1024:ℚ) := by norm_num
  have hlog0 : 0 ≤ Int.log 1024 (n:ℚ) := by
    rw [← Int.zpow_le_iff_le_log hb hr, hcast]
    simpa using hq1
  have hlog5 : Int.log 1024 (n:ℚ) < 5 := by
    rw [← Int.lt_zpow_iff_log_lt hb hr, hcast]
    rw [show ((5:ℤ) = ((5:ℕ):ℤ)) from rfl, zpow_natCast]
    exact hq5
  have hik : Int.log 1024 (n:ℚ) = ((Int.log 1024 (n:ℚ)).toNat : ℤ) :=
    (Int.toNat_of_nonneg hlog0).symm
  have hk5 : (Int.log 1024 (n:ℚ)).toNat < 5 := by omega
  have hklen : (Int.log 1024 (n:ℚ)).toNat < hbUnits.length := hk5
  refine ⟨(Int.log 1024 (n:ℚ)).toNat, hbUnits.get ⟨(Int.log 1024 (n:ℚ)).toNat, hklen⟩,
    List.get?_eq_get hklen, ?_, ?_, ?_⟩
  · have h := Int.zpow_log_le_self (b := 1024) (r := (n:ℚ)) hb hr
    rw [hcast, hik, zpow_natCast] at h
    exact h
  · intro j hj
    by_contra hcon
    have hj1 : (Int.log 1024 (n:ℚ)).toNat + 1 ≤ j := by omega
    have hlt := Int.lt_zpow_succ_log_self (b := 1024) hb (n:ℚ)
    rw [hcast, hik] at hlt
    have hz : ((1024:ℚ) ^ ((((Int.log 1024 (n:ℚ)).toNat : ℤ)) + 1) : ℚ)
        = (1024:ℚ) ^ ((Int.log 1024 (n:ℚ)).toNat + 1) := by
      rw [show ((((Int.log 1024 (n:ℚ)).toNat : ℤ)) + 1 : ℤ)
          = (((Int.log 1024 (n:ℚ)).toNat + 1 : ℕ) : ℤ) by push_cast; ring, zpow_natCast]
    rw [hz] at hlt
    have hmono : (1024:ℚ) ^ ((Int.log 1024 (n:ℚ)).toNat + 1) ≤ (1024:ℚ) ^ j :=
      pow_le_pow_right₀ (by norm_num) hj1
    linarith
  · refine ⟨pyRound2 ((n:ℚ) / (1024:ℚ) ^ pyFloorLog1024 (n:ℚ)), ?_⟩
    unfold human_bytes
    rw [if_neg (ne_of_gt hr), if_neg (by linarith)]
    rw [hlogeq]
    have hpi : pyIndex hbUnits (Int.log 1024 (n:ℚ))
        = some (hbUnits.get ⟨(Int.log 1024 (n:ℚ)).toNat, hklen⟩) := by
      unfold pyIndex
      rw [if_neg (not_lt.mpr hlog0)]
      exact List.get?_eq_get hklen
    rw [hpi, Option.map_some']

/-! ## Lemmas about the stream parser and the event stream -/

theorem lineEvent_not_terminal (raw : String) (e : Event) (h : lineEvent raw = some e) :
    e.isTerminal = false := by
  unfold lineEvent lineEventCore at h
  split at h
  · cases h; rfl
  · split_ifs at h <;> cases h <;> rfl

theorem filter_terminal_lineEvents (lines : List String) :
    (lines.filterMap lineEvent).filter Event.isTerminal = [] := by
  induction lines with
  | nil => rfl
  | cons a rest ih =>
    cases h : lineEvent a with
    | none => simpa [List.filterMap_cons, h] using ih
    | some e =>
      simp [List.filterMap_cons, h, List.filter_cons, lineEvent_not_terminal a e h, ih]

/-- C2: every run of the progress stream emits exactly one terminal event;
for a normally completed run that event is `finished` exactly when the exit
code is zero, and the error referencing the exit code otherwise.  Per-line
content events — including `ERROR:`-line error events — are never
terminal. -/
theorem sse_stream_single_terminal (r : RunResult) :
    ((sse_stream r).filter Event.isTerminal).length = 1 ∧
      ∀ lines code, r = .completed lines code →
        (sse_stream r).filter Event.isTerminal
          = [if code = 0 then Event.finished else Event.exitError code] := by
  constructor
  · cases r with
    | completed lines code =>
      simp only [sse_stream, List.filter_cons, List.filter_append, filter_terminal_lineEvents]
      by_cases hc : code = 0 <;> simp [hc, Event.isTerminal]
    | launchFailure msg => simp [sse_stream, Event.isTerminal]
    | abortedAfter lines msg =>
      simp only [sse_stream, List.filter_cons, List.filter_append, filter_terminal_lineEvents]
      simp [Event.isTerminal]
  · rintro lines code rfl
    simp only [sse_stream, List.filter_cons, List.filter_append, filter_terminal_lineEvents]
    by_cases hc : code = 0 <;> simp [hc, Event.isTerminal]

/-- C2 witness: a concrete completed run — one progress line, one ignored
line, exit code 0 — filters to exactly the one `finished` terminal event. -/
theorem sse_stream_single_terminal_witness :
    (sse_stream (.completed
        ["[download]  42.5% of 10.00MiB at 1.00MiB/s ETA 00:05", "junk"] 0)).filter
        Event.isTerminal
      = [if (0:ℤ) = 0 then Event.finished else Event.exitError 0] :=
  (sse_stream_single_terminal _).2 _ 0 rfl

/-! ## Lemmas for the percent-group claim -/

theorem takeWhile_all {p : Char → Bool} {l : List Char} (h : ∀ c ∈ l, p c = true) :
    l.takeWhile p = l := by
  induction l with
  | nil => rfl
  | cons a t ih =>
    rw [List.takeWhile_cons_of_pos (h a (List.mem_cons_self a t)),
      ih fun c hc => h c (List.mem_cons_of_mem a hc)]

theorem dropWhile_all {p : Char → Bool} {l : List Char} (h : ∀ c ∈ l, p c = true) :
    l.dropWhile p = [] := by
  induction l with
  | nil => rfl
  | cons a t ih =>
    rw [List.dropWhile_cons_of_pos (h a (List.mem_cons_self a t))]
    exact ih fun c hc => h c (List.mem_cons_of_mem a hc)

theorem takeWhile_append_all {p : Char → Bool} {ds rest : List Char}
    (h : ∀ c ∈ ds, p c = true) :
    (ds ++ rest).takeWhile p = ds ++ rest.takeWhile p := by
  induction ds with
  | nil => rfl
  | cons a t ih =>
    rw [List.cons_append, List.takeWhile_cons_of_pos (h a (List.mem_cons_self a t)),
      ih fun c hc => h c (List.mem_cons_of_mem a hc), List.cons_append]

theorem dropWhile_append_all {p : Char → Bool} {ds rest : List Char}
    (h : ∀ c ∈ ds, p c = true) :
    (ds ++ rest).dropWhile p = rest.dropWhile p := by
  induction ds with
  | nil => rfl
  | cons a t ih =>
    rw [List.cons_append, List.dropWhile_cons_of_pos (h a (List.mem_cons_self a t))]
    exact ih fun c hc => h c (List.mem_cons_of_mem a hc)

theorem isPySpace_false_of_isDigit {c : Char} (h : c.isDigit = true) :
    isPySpace c = false := by
  cases hc : isPySpace c
  · rfl
  · exfalso
    unfold isPySpace at hc
    simp only [Bool.or_eq_true, decide_eq_true_eq] at hc
    rcases hc with ((((rfl | rfl) | rfl) | rfl) | rfl) | rfl <;> exact absurd h (by decide)

theorem stripL_eq_self {l : List Char} (h : ∀ c ∈ l, isPySpace c = false) :
    stripL l = l := by
  unfold stripL
  have h1 : l.dropWhile isPySpace = l := by
    cases l with
    | nil => rfl
    | cons a t => exact List.dropWhile_cons_of_neg (by simp [h a (List.mem_cons_self a t)])
  rw [h1]
  have h2 : l.reverse.dropWhile isPySpace = l.reverse := by
    cases hrev : l.reverse with
    | nil => rfl
    | cons a t =>
      refine List.dropWhile_cons_of_neg ?_
      have ha : a ∈ l := by
        rw [← List.mem_reverse, hrev]
        exact List.mem_cons_self a t
      simp [h a ha]
  rw [h2, List.reverse_reverse]

theorem matchPct_shape {cs pct rest : List Char} (h : matchPct cs = some (pct, rest)) :
    (∃ ds, ds ≠ [] ∧ (∀ c ∈ ds, c.isDigit = true) ∧ pct = ds) ∨
      ∃ ds fs, ds ≠ [] ∧ fs ≠ [] ∧ (∀ c ∈ ds, c.isDigit = true) ∧
        (∀ c ∈ fs, c.isDigit = true) ∧ pct = ds ++ '.' :: fs := by
  unfold matchPct at h
  split at h
  · exact absurd h (by simp)
  next hlen =>
    push_neg at hlen
    split at h
    next rest2 hsplit =>
      split at h
      · exact absurd h (by simp)
      next hfs =>
        split at h
        next rest3 hsplit2 =>
          injection h with h'
          rw [Prod.mk.injEq] at h'
          refine Or.inr ⟨cs.takeWhile Char.isDigit, rest2.takeWhile Char.isDigit,
            ?_, ?_, fun c hc => List.mem_takeWhile_imp hc,
            fun c hc => List.mem_takeWhile_imp hc, h'.1.symm⟩
          · intro hnil
            rw [hnil] at hlen
            simp at hlen
          · intro hnil
            rw [hnil] at hfs
            simp at hfs
        · exact absurd h (by simp)
    next rest3 hsplit =>
      injection h with h'
      rw [Prod.mk.injEq] at h'
      refine Or.inl ⟨cs.takeWhile Char.isDigit, ?_,
        fun c hc => List.mem_takeWhile_imp hc, h'.1.symm⟩
      intro hnil
      rw [hnil] at hlen
      simp at hlen
    · exact absurd h (by simp)

theorem pyFloatMantissa_digits_isSome {ds : List Char} (sgn : ℚ) (hne : ds ≠ [])
    (hd : ∀ c ∈ ds, c.isDigit = true) :
    (pyFloatMantissa sgn ds).isSome = true := by
  unfold pyFloatMantissa
  rw [dropWhile_all hd, takeWhile_all hd, if_neg (by simp),
    if_neg (by simpa [List.isEmpty_iff] using hne)]
  simp [floatTail]

theorem pyFloatMantissa_frac_isSome {ds fs : List Char} (sgn : ℚ)
    (hdne : ds ≠ []) (hfne : fs ≠ [])
    (hd : ∀ c ∈ ds, c.isDigit = true) (hf : ∀ c ∈ fs, c.isDigit = true) :
    (pyFloatMantissa sgn (ds ++ '.' :: fs)).isSome = true := by
  unfold pyFloatMantissa
  rw [dropWhile_append_all hd, takeWhile_append_all hd,
    List.dropWhile_cons_of_neg (by decide), List.takeWhile_cons_of_neg (by decide),
    List.append_nil]
  rw [if_pos (show (('.' :: fs).head? = some '.') from rfl)]
  simp only [List.drop_succ_cons, List.drop_zero]
  rw [takeWhile_all hf, dropWhile_all hf,
    if_neg (by simp [List.isEmpty_iff, hdne, hfne])]
  simp [floatTail]

theorem head_digit_not_sign {l : List Char} (h : ∀ c, l.head? = some c → c.isDigit = true) :
    l.head? ≠ some '+' ∧ l.head? ≠ some '-' := by
  constructor <;> intro hcon <;> exact absurd (h _ hcon) (by decide)

theorem pyFloat_matchPct_isSome {cs pct rest : List Char}
    (h : matchPct cs = some (pct, rest)) :
    (pyFloat (String.mk pct)).isSome = true := by
  have hshape := matchPct_shape h
  have hnospace : ∀ c ∈ pct, isPySpace c = false := by
    rcases hshape with ⟨ds, _, hd, rfl⟩ | ⟨ds, fs, _, _, hd, hf, rfl⟩
    · exact fun c hc => isPySpace_false_of_isDigit (hd c hc)
    · intro c hc
      rcases List.mem_append.mp hc with hc | hc
      · exact isPySpace_false_of_isDigit (hd c hc)
      · rcases List.mem_cons.mp hc with rfl | hc
        · decide
        · exact isPySpace_false_of_isDigit (hf c hc)
  have hhead : ∀ c, pct.head? = some c → c.isDigit = true := by
    rcases hshape with ⟨ds, hne, hd, rfl⟩ | ⟨ds, fs, hdne, _, hd, _, rfl⟩
    · intro c hc
      exact hd c (List.mem_of_mem_head? (Option.mem_def.mpr hc))
    · cases ds with
      | nil => exact absurd rfl hdne
      | cons a t =>
        intro c hc
        rw [List.cons_append, List.head?_cons, Option.some.injEq] at hc
        exact hc ▸ hd a (List.mem_cons_self a t)
  unfold pyFloat
  rw [show (String.mk pct).data = pct from rfl, stripL_eq_self hnospace]
  unfold pyFloatCore
  rw [if_neg (head_digit_not_sign hhead).1, if_neg (head_digit_not_sign hhead).2]
  rcases hshape with ⟨ds, hne, hd, rfl⟩ | ⟨ds, fs, hdne, hfne, hd, hf, rfl⟩
  · exact pyFloatMantissa_digits_isSome 1 hne hd
  · exact pyFloatMantissa_frac_isSome 1 hdne hfne hd hf

theorem matchProgress_pct {cs : List Char} {m : ProgressGroups}
    (h : matchProgress cs = some m) :
    ∃ pct rest r2, matchPct r2 = some (pct, rest) ∧ m.pct = String.mk pct := by
  unfold matchProgress at h
  rw [Option.bind_eq_some] at h
  obtain ⟨r2, h1, h⟩ := h
  rw [Option.bind_eq_some] at h
  obtain ⟨pr, h2, h⟩ := h
  refine ⟨pr.1, pr.2, r2, h2, ?_⟩
  rw [Option.bind_eq_some] at h
  obtain ⟨r4, h3, h⟩ := h
  rw [Option.bind_eq_some] at h
  obtain ⟨r6, h4, h⟩ := h
  rw [Option.map_eq_some'] at h
  obtain ⟨g, h5, rfl⟩ := h
  rfl

/-- C9: every downloading event the stream parser emits carries a non-null
numeric percent — the percent group matched by the progress regex is one to
three digits optionally followed by a decimal fraction and always parses as
a float, so the `except` fallback that would set the percent to null is
unreachable. -/
theorem downloading_percent_not_null (line : String) (p : Option ℚ) (sz sp eta : String)
    (h : lineEvent line = some (.downloading p sz sp eta)) : p ≠ none := by
  unfold lineEvent lineEventCore at h
  split at h
  next m hm =>
    injection h with h'
    injection h' with hp hsz hsp heta
    obtain ⟨pct, rest, r2, hmp, hpct⟩ := matchProgress_pct hm
    rw [← hp, hpct]
    intro hcon
    have hsome := pyFloat_matchPct_isSome hmp
    rw [hcon] at hsome
    simp at hsome
  next =>
    split_ifs at h <;> simp at h

/-- C9 witness: the spec's example progress line yields a downloading event
whose percent field is the parsed (non-null) float of the matched group
`"42.5"`. -/
theorem downloading_percent_not_null_witness :
    lineEvent "[download]  42.5% of 10.00MiB at 1.00MiB/s ETA 00:05"
        = some (.downloading (pyFloat "42.5") "10.00MiB" "1.00MiB/s" "00:05") ∧
      pyFloat "42.5" ≠ none := by
  have h : lineEvent "[download]  42.5% of 10.00MiB at 1.00MiB/s ETA 00:05"
      = some (.downloading (pyFloat "42.5") "10.00MiB" "1.00MiB/s" "00:05") := rfl
  exact ⟨h, downloading_percent_not_null _ _ _ _ _ h⟩

/-- C3 witness: the amended `human_bytes` theorem applied at the concrete
byte count 1 (whose largest admissible unit is B). -/
theorem human_bytes_unit_selection_witness :
    1 ≤ 1 ∧ (1:ℕ) ≤ 1024 ^ (5:ℕ) - 4 ∧
      (human_bytes 0 = some "0 B" ∧ human_bytes 1024 = some "1.0 KB" ∧
        human_bytes ((1024:ℚ) ^ (5:ℕ) - 1) = none ∧
        ∃ (i : ℕ) (u : String), hbUnits.get? i = some u ∧
          (1024:ℚ) ^ i ≤ ((1:ℕ):ℚ) ∧ (∀ j : ℕ, (1024:ℚ) ^ j ≤ ((1:ℕ):ℚ) → j ≤ i) ∧
          ∃ s : ℚ, human_bytes ((1:ℕ):ℚ) = some (ratRepr s ++ " " ++ u)) :=
  ⟨le_refl 1, by norm_num, human_bytes_unit_selection 1 (le_refl 1) (by norm_num)⟩

/-- C5: for every non-playlist `/progress` request (nonempty stripped URL
and quality, no playlist flag or marker), the `-f` selector handed to the
tool is the caller's selector with `+ba` appended when it contains no `+`
combinator, and the selector verbatim when it already contains one. -/
theorem quality_selector_resolution (ytdlp ffmpeg urlP qualityP path fpP : String)
    (hurl : pyStrip urlP ≠ "") (hq : pyStrip qualityP ≠ "")
    (hmode : (truthyFlag fpP || is_probably_playlist (pyStrip urlP)) = false) :
    (pyIn "+" (pyStrip qualityP) = false →
      progress_cmd ytdlp ffmpeg urlP qualityP path fpP
        = .ok ([ytdlp, "--newline", "-f", pyStrip qualityP ++ "+ba", "--no-playlist"]
          ++ (if ffmpeg ≠ "" then ["--ffmpeg-location", ffmpeg] else [])
          ++ ["-o", pyJoin path "%(title)s.%(ext)s", pyStrip urlP])) ∧
    (pyIn "+" (pyStrip qualityP) = true →
      progress_cmd ytdlp ffmpeg urlP qualityP path fpP
        = .ok ([ytdlp, "--newline", "-f", pyStrip qualityP, "--no-playlist"]
          ++ (if ffmpeg ≠ "" then ["--ffmpeg-location", ffmpeg] else [])
          ++ ["-o", pyJoin path "%(title)s.%(ext)s", pyStrip urlP])) := by
  constructor <;> intro hplus <;> simp [progress_cmd, hurl, hq, hmode, hplus]

/-- C5 witness: the bare selector `"137"` becomes `"137+ba"` in the built
command. -/
theorem quality_selector_resolution_witness :
    pyIn "+" (pyStrip "137") = false ∧
      progress_cmd "yt-dlp" "ffmpeg" "http://e/v" "137" "/dl" "false"
        = .ok (["yt-dlp", "--newline", "-f", pyStrip "137" ++ "+ba", "--no-playlist"]
          ++ (if "ffmpeg" ≠ "" then ["--ffmpeg-location", "ffmpeg"] else [])
          ++ ["-o", pyJoin "/dl" "%(title)s.%(ext)s", pyStrip "http://e/v"]) :=
  ⟨by decide, (quality_selector_resolution "yt-dlp" "ffmpeg" "http://e/v" "137" "/dl" "false"
      (by decide) (by decide) (by decide)).1 (by decide)⟩

/-- C6: a `/get_formats` request whose effective URL contains a playlist
marker (`"list="` or `"/playlist"` after lower-casing) returns the playlist
payload with `is_playlist` true and empty format lists, for every
subprocess and JSON-parser behaviour — i.e. regardless of what the tool
would output, which is never consulted. -/
theorem playlist_short_circuit (runJ : List String → String × String × ℤ)
    (parseJ : String → Except String YtData) (ytdlp : String) (r : FormatsRequest)
    (u : String)
    (hu : (if !pyTruthy r.query_url && r.is_json then r.json_url else r.query_url) = some u)
    (hne : u ≠ "") (hpl : is_probably_playlist u = true) :
    get_formats_api runJ parseJ ytdlp r = .payload "Playlist" true [] [] := by
  simp only [get_formats_api, hu]
  simp [pyTruthy, hne, hpl]

/-- C6 witness: a concrete playlist URL with a refuting oracle (it would
report formats) still yields the playlist payload. -/
theorem playlist_short_circuit_witness :
    get_formats_api (fun _ => ("x", "", 0)) (fun _ => .error "e") "yt-dlp"
        ⟨some "https://y/watch?LIST=PL", false, none⟩ = .payload "Playlist" true [] [] :=
  playlist_short_circuit _ _ _ _ "https://y/watch?LIST=PL" (by decide) (by decide) (by decide)

/-- C7: a `/get_formats` request carrying no url — neither as query
parameter nor as JSON-body member — yields the 400 `"Missing url"` error
response, for every subprocess/parser behaviour: no subprocess is
consulted. -/
theorem missing_url_bad_request (runJ : List String → String × String × ℤ)
    (parseJ : String → Except String YtData) (ytdlp : String) (r : FormatsRequest)
    (hq : r.query_url = none) (hj : r.json_url = none) :
    get_formats_api runJ parseJ ytdlp r = .badRequest "Missing url" := by
  simp [get_formats_api, hq, hj, pyTruthy]

/-- C7 witness: a concrete url-less JSON request gets the 400 response. -/
theorem missing_url_bad_request_witness :
    get_formats_api (fun _ => ("x", "", 0)) (fun _ => .error "e") "yt-dlp"
        ⟨none, true, none⟩ = .badRequest "Missing url" :=
  missing_url_bad_request _ _ _ _ rfl rfl

/-! ## Lemmas for the temporary-file cleanup -/

theorem not_self_mem_pyRemoveIfExists (name : String) (fs : List String) :
    name ∉ pyRemoveIfExists name fs := by
  unfold pyRemoveIfExists
  split
  · intro hmem
    simp [List.mem_filter] at hmem
  · next hnot => exact hnot

theorem mem_of_mem_pyRemoveIfExists {x name : String} {fs : List String}
    (h : x ∈ pyRemoveIfExists name fs) : x ∈ fs := by
  unfold pyRemoveIfExists at h
  split at h
  · exact (List.mem_filter.mp h).1
  · exact h

/-- C8: after `download_and_merge` completes — success, failure of any of
the three steps, or an exception propagating out of a step — neither
`video_temp.mp4` nor `audio_temp.m4a` exists, whatever the three tool
invocations did to the filesystem: the `finally` cleanup removes both on
every exit path. -/
theorem download_and_merge_cleanup (s1 s2 s3 : List String → List String × RunOutcome)
    (fs0 : List String) :
    "video_temp.mp4" ∉ (download_and_merge s1 s2 s3 fs0).2 ∧
      "audio_temp.m4a" ∉ (download_and_merge s1 s2 s3 fs0).2 := by
  obtain ⟨fs, hfs⟩ : ∃ fs, (download_and_merge s1 s2 s3 fs0).2 = dam_cleanup fs := ⟨_, rfl⟩
  constructor
  · intro hmem
    rw [hfs] at hmem
    unfold dam_cleanup at hmem
    exact not_self_mem_pyRemoveIfExists _ _ (mem_of_mem_pyRemoveIfExists hmem)
  · intro hmem
    rw [hfs] at hmem
    unfold dam_cleanup at hmem
    exact not_self_mem_pyRemoveIfExists _ _ hmem

/-- C10: a `/progress` request with a missing or empty `download_path`
parameter resolves the destination to the server's current working
directory (no directory is created); every nonempty path reaching
`safe_path` is user-expanded, resolved — an absolute path, under the
hypothesis that the host's `Path.resolve` always yields one — created along
with its parents, and the returned destination is that absolute path. -/
theorem download_path_resolution (ctx : PathCtx) (dirs : List String)
    (param : Option String) (p : String)
    (habs : ∀ s, isAbs (ctx.resolve s) = true) (hp : p ≠ "") :
    ((param = none ∨ param = some "") →
      progress_download_path ctx dirs param = (ctx.cwd, dirs)) ∧
    safe_path ctx dirs p
        = (ctx.resolve (ctx.expanduser p),
            mkdirParents (ctx.resolve (ctx.expanduser p)) dirs) ∧
    isAbs (ctx.resolve (ctx.expanduser p)) = true ∧
    ctx.resolve (ctx.expanduser p) ∈ (safe_path ctx dirs p).2 := by
  refine ⟨?_, ?_, habs _, ?_⟩
  · rintro (rfl | rfl) <;> rfl
  · unfold safe_path
    rw [if_neg hp]
  · have hm : ctx.resolve (ctx.expanduser p)
        ∈ mkdirParents (ctx.resolve (ctx.expanduser p)) dirs := by
      unfold mkdirParents
      exact List.mem_append_right _ (List.mem_cons_self _ _)
    unfold safe_path
    rw [if_neg hp]
    exact hm

/-- C10 witness: the resolution theorem at a concrete context (constant
resolver `"/abs"`), an empty parameter and the nonempty path `"x"`. -/
theorem download_path_resolution_witness :
    ((some "" = none ∨ (some "" : Option String) = some "") →
      progress_download_path ⟨"/cwd", id, fun _ => "/abs"⟩ [] (some "") = ("/cwd", [])) ∧
    safe_path ⟨"/cwd", id, fun _ => "/abs"⟩ [] "x" = ("/abs", mkdirParents "/abs" []) ∧
    isAbs "/abs" = true ∧
    "/abs" ∈ (safe_path ⟨"/cwd", id, fun _ => "/abs"⟩ [] "x").2 :=
  download_path_resolution ⟨"/cwd", id, fun _ => "/abs"⟩ [] (some "") "x"
    (fun _ => rfl) (by decide)

end Tubemate
